import Mathlib

/-!
Verification of the dispatch/retry/versioning engine of `src/lib/client.js`
(the `AWS.Client` prototype), as a shallow embedding in Lean.

JavaScript values are modelled explicitly:
an absent (`undefined`) value is `Option.none`; JavaScript truthiness of a
string-valued variable is `jsTruthyStr` (the empty string is falsy);
machine integers that appear (status codes, retry counts, delays) stay small,
so they are modelled as `Nat` with no overflow concern; a thrown `Error`
becomes `Except.error` of a `JsError` constructor carrying the data that the
source interpolates into the message string.
-/

namespace AwsClient

/-- JavaScript truthiness of a possibly-undefined string: `undefined` and the
empty string are falsy, every other string is truthy. -/
def jsTruthyStr : Option String → Bool
  | none => false
  | some s => !(s == "")

/-- JavaScript `a || b` on possibly-undefined strings: keeps `a` when truthy,
otherwise yields `b`. -/
def jsOrStr (a b : Option String) : Option String :=
  if jsTruthyStr a then a else b

/-! ## Lexicographic string comparison

JavaScript compares strings (`<=` in `getLatestClientVersion`, and the default
`Array.prototype.sort`) lexicographically on code units.  `charListLe` is that
comparison on the character lists of the two strings; on the ASCII version keys
and tokens of this program it agrees with code-unit order exactly. -/

/-- Lexicographic less-or-equal on character lists, by code point. -/
def charListLe : List Char → List Char → Bool
  | [], _ => true
  | _ :: _, [] => false
  | a :: as, b :: bs =>
    if a < b then true
    else if b < a then false
    else charListLe as bs

/-- Lexicographic less-or-equal on strings, as the JavaScript `<=` operator
compares them. -/
def strLe (a b : String) : Bool :=
  charListLe a.toList b.toList

/-! ## Errors thrown by `client.js` -/

/-- The errors `client.js` throws, each constructor carrying the data the
source interpolates into the thrown message string. -/
inductive JsError where
  /-- `"No clients defined on " + serviceIdentifier` -/
  | noClients (service : String)
  /-- `"Could not find " + serviceIdentifier + " API to satisfy version constraint ..."` -/
  | versionConstraint (service : String) (version : String)
  /-- `"Invalid service format ... in API config"` -/
  | invalidFormat (format : String)
deriving Repr, DecidableEq

/-! ## Data model -/

/-- A service error value as `retryableError` inspects it: an optional `code`
string and an optional numeric `statusCode` (absent for errors that never
reached the HTTP layer). -/
structure ErrorInfo where
  code : Option String := none
  statusCode : Option Nat := none
deriving Repr, DecidableEq

/-- An API descriptor (`this.api`): the fields of it that `client.js` reads.
A client whose descriptor has none of these fields set models the default
`api: {}` object. -/
structure ServiceApi where
  format : Option String := none
  globalEndpoint : Option String := none
  endpointPrefix : Option String := none
  operations : List String := []
deriving Repr, DecidableEq

/-- `AWS.util.isEmpty(this.api)`: the descriptor object has no own
properties, that is, none of its modelled fields is set. -/
def ServiceApi.isEmpty (a : ServiceApi) : Bool :=
  a.format.isNone && a.globalEndpoint.isNone && a.endpointPrefix.isNone && a.operations.isEmpty

/-- The configuration fields of `AWS.Config` that `client.js` reads, already
merged (global defaults overridden by per-client values, override wins). -/
structure ClientConfig where
  region : String := "us-east-1"
  maxRetries : Option Nat := none
  paramValidation : Bool := true
  endpoint : Option String := none
  apiVersion : Option String := none
  apiVersions : String → Option String := fun _ => none
  apiConfig : Option ServiceApi := none

/-- The per-client state that the retry-policy methods read: the merged
config and the `defaultRetryCount` prototype field (3 unless a client class
overrides it). -/
structure ModelClient where
  config : ClientConfig := {}
  defaultRetryCount : Nat := 3

/-- The endpoint object produced by `setEndpoint`; `client.js` only
determines its host string. -/
structure Endpoint where
  host : String
deriving Repr, DecidableEq

/-- Merging `maxRetries` from the global config and the per-client config:
`config.update(clientConfig, true)` lets the per-client value win whenever
the client supplied one. -/
def effectiveMaxRetries (globalMax instanceMax : Option Nat) : Option Nat :=
  match instanceMax with
  | some n => some n
  | none => globalMax

/-! ## Retry policy (`numRetries`, `retryDelays`, `retryableError`) -/

/-- `numRetries()`: `config.maxRetries` when it is not `undefined` (including
`0`), otherwise the prototype default `defaultRetryCount`. -/
def numRetries (c : ModelClient) : Nat :=
  match c.config.maxRetries with
  | some n => n
  | none => c.defaultRetryCount

/-- `retryDelays()`: the loop `for i in [0, retryCount) do delays[i] = 2^i * 30`. -/
def retryDelays (c : ModelClient) : List Nat :=
  (List.range (numRetries c)).map (fun i => 2 ^ i * 30)

/-- `networkingError`: `error.code == 'NetworkingError'` (an undefined code
is loosely unequal to any string). -/
def networkingError (e : ErrorInfo) : Bool :=
  match e.code with
  | some c => c == "NetworkingError"
  | none => false

/-- `expiredCredentialsError`: `error.code === 'ExpiredTokenException'`. -/
def expiredCredentialsError (e : ErrorInfo) : Bool :=
  match e.code with
  | some c => c == "ExpiredTokenException"
  | none => false

/-- `throttledError`: `error.code == 'ProvisionedThroughputExceededException'`. -/
def throttledError (e : ErrorInfo) : Bool :=
  match e.code with
  | some c => c == "ProvisionedThroughputExceededException"
  | none => false

/-- `error.statusCode >= 500`: false when `statusCode` is `undefined`
(`undefined >= 500` is false in JavaScript). -/
def statusAtLeast500 (e : ErrorInfo) : Bool :=
  match e.statusCode with
  | some n => decide (500 ≤ n)
  | none => false

/-- `retryableError(error)`: the four early-return checks of the source, in
source order, else false. -/
def retryableError (e : ErrorInfo) : Bool :=
  if networkingError e then true
  else if expiredCredentialsError e then true
  else if throttledError e then true
  else if statusAtLeast500 e then true
  else false

end AwsClient

namespace AwsClient

/-- C2: `retryableError(e)` returns true exactly when the code is
`NetworkingError`, `ExpiredTokenException` or
`ProvisionedThroughputExceededException`, or the status code is at least 500;
for every other combination — in particular every status code in `[200, 500)`
under an arbitrary other code — it returns false. -/
theorem retryableError_characterization (e : ErrorInfo) :
    retryableError e = true ↔
      (e.code = some "NetworkingError" ∨
       e.code = some "ExpiredTokenException" ∨
       e.code = some "ProvisionedThroughputExceededException" ∨
       ∃ n, e.statusCode = some n ∧ 500 ≤ n) := by
  rcases e with ⟨code, status⟩
  simp only [retryableError, networkingError, expiredCredentialsError, throttledError,
    statusAtLeast500]
  rcases code with _ | c <;> rcases status with _ | n <;>
    simp [beq_iff_eq, decide_eq_true_eq]

/-- C3: `retryDelays()` has length `numRetries()`, its `i`-th entry is
`2^i * 30`, and the entries are strictly increasing in `i`. -/
theorem retryDelays_schedule (c : ModelClient) :
    (retryDelays c).length = numRetries c ∧
    (∀ i, i < numRetries c → (retryDelays c).getD i 0 = 2 ^ i * 30) ∧
    (∀ i j, i < j → j < numRetries c →
      (retryDelays c).getD i 0 < (retryDelays c).getD j 0) := by
  have hlen : (retryDelays c).length = numRetries c := by
    simp [retryDelays]
  have hget : ∀ i, i < numRetries c → (retryDelays c).getD i 0 = 2 ^ i * 30 := by
    intro i hi
    have hi' : i < (retryDelays c).length := by rw [hlen]; exact hi
    rw [List.getD_eq_getElem _ _ hi']
    simp [retryDelays]
  refine ⟨hlen, hget, ?_⟩
  intro i j hij hj
  rw [hget i (lt_trans hij hj), hget j hj]
  have hpow : 2 ^ i < 2 ^ j := Nat.pow_lt_pow_right (by norm_num) hij
  exact Nat.mul_lt_mul_of_lt_of_le hpow (le_refl 30) (by norm_num)

/-- Witness for C3 at a concrete client with `maxRetries = 3`. -/
theorem retryDelays_schedule_witness :
    (retryDelays { config := { maxRetries := some 3 } }).getD 1 0 = 2 ^ 1 * 30 ∧
    (retryDelays { config := { maxRetries := some 3 } }).getD 1 0
      < (retryDelays { config := { maxRetries := some 3 } }).getD 2 0 :=
  ⟨(retryDelays_schedule { config := { maxRetries := some 3 } }).2.1 1 (by decide),
   (retryDelays_schedule { config := { maxRetries := some 3 } }).2.2 1 2 (by decide) (by decide)⟩

/-- C8: `numRetries()` returns `config.maxRetries` whenever it is defined —
including 0, in which case `retryDelays()` is empty — and falls back to the
default 3 only when `maxRetries` is undefined at both the global-config and
the per-client level. -/
theorem numRetries_maxRetries (g i : Option Nat) :
    (∀ n, effectiveMaxRetries g i = some n →
        numRetries { config := { maxRetries := effectiveMaxRetries g i } } = n) ∧
    (effectiveMaxRetries g i = some 0 →
        retryDelays { config := { maxRetries := effectiveMaxRetries g i } } = []) ∧
    (g = none → i = none →
        numRetries { config := { maxRetries := effectiveMaxRetries g i } } = 3) ∧
    ((g ≠ none ∨ i ≠ none) →
        ∃ n, effectiveMaxRetries g i = some n ∧
          numRetries { config := { maxRetries := effectiveMaxRetries g i } } = n) := by
  refine ⟨?_, ?_, ?_, ?_⟩
  · intro n hn
    simp [numRetries, hn]
  · intro h0
    simp [retryDelays, numRetries, h0]
  · intro hg hi
    simp [numRetries, effectiveMaxRetries, hg, hi]
  · intro hdef
    rcases i with _ | n
    · rcases g with _ | n
      · rcases hdef with h | h <;> simp at h
      · exact ⟨n, rfl, by simp [numRetries, effectiveMaxRetries]⟩
    · exact ⟨n, rfl, by simp [numRetries, effectiveMaxRetries]⟩

/-- Witness for C8: with `maxRetries: 0` set on the client, no retry delay is
scheduled, and with it unset at both levels the default of 3 is used. -/
theorem numRetries_maxRetries_witness :
    retryDelays { config := { maxRetries := effectiveMaxRetries none (some 0) } } = [] ∧
    numRetries { config := { maxRetries := effectiveMaxRetries none none } } = 3 :=
  ⟨(numRetries_maxRetries none (some 0)).2.1 rfl,
   (numRetries_maxRetries none none).2.2.1 rfl rfl⟩

end AwsClient

namespace AwsClient

/-! ## Order theory for the lexicographic comparison -/

theorem charListLe_refl : ∀ l : List Char, charListLe l l = true
  | [] => rfl
  | a :: as => by
    simp only [charListLe]
    rw [if_neg (lt_irrefl a), if_neg (lt_irrefl a)]
    exact charListLe_refl as

theorem charListLe_trans : ∀ {l1 l2 l3 : List Char},
    charListLe l1 l2 = true → charListLe l2 l3 = true → charListLe l1 l3 = true
  | [], _, _, _, _ => rfl
  | _ :: _, [], _, h12, _ => by simp [charListLe] at h12
  | _ :: _, _ :: _, [], _, h23 => by simp [charListLe] at h23
  | a :: as, b :: bs, c :: cs, h12, h23 => by
    simp only [charListLe] at h12 h23 ⊢
    by_cases hab : a < b
    · by_cases hbc : b < c
      · rw [if_pos (lt_trans hab hbc)]
      · by_cases hcb : c < b
        · rw [if_neg hbc, if_pos hcb] at h23
          exact absurd h23 (by simp)
        · have hbceq : b = c := le_antisymm (not_lt.mp hcb) (not_lt.mp hbc)
          subst hbceq
          rw [if_pos hab]
    · by_cases hba : b < a
      · rw [if_neg hab, if_pos hba] at h12
        exact absurd h12 (by simp)
      · have habeq : a = b := le_antisymm (not_lt.mp hba) (not_lt.mp hab)
        subst habeq
        rw [if_neg (lt_irrefl a), if_neg (lt_irrefl a)] at h12
        by_cases hac : a < c
        · rw [if_pos hac]
        · by_cases hca : c < a
          · rw [if_neg hac, if_pos hca] at h23
            exact absurd h23 (by simp)
          · have haceq : a = c := le_antisymm (not_lt.mp hca) (not_lt.mp hac)
            subst haceq
            rw [if_neg (lt_irrefl a), if_neg (lt_irrefl a)] at h23 ⊢
            exact charListLe_trans h12 h23

theorem charListLe_total : ∀ l1 l2 : List Char,
    charListLe l1 l2 = true ∨ charListLe l2 l1 = true
  | [], _ => Or.inl rfl
  | _ :: _, [] => Or.inr rfl
  | a :: as, b :: bs => by
    by_cases hab : a < b
    · exact Or.inl (by simp only [charListLe]; rw [if_pos hab])
    · by_cases hba : b < a
      · exact Or.inr (by simp only [charListLe]; rw [if_pos hba])
      · have habeq : a = b := le_antisymm (not_lt.mp hba) (not_lt.mp hab)
        subst habeq
        rcases charListLe_total as bs with h | h
        · exact Or.inl (by
            simp only [charListLe]
            rw [if_neg (lt_irrefl a), if_neg (lt_irrefl a)]
            exact h)
        · exact Or.inr (by
            simp only [charListLe]
            rw [if_neg (lt_irrefl a), if_neg (lt_irrefl a)]
            exact h)

theorem charListLe_antisymm : ∀ {l1 l2 : List Char},
    charListLe l1 l2 = true → charListLe l2 l1 = true → l1 = l2
  | [], [], _, _ => rfl
  | [], _ :: _, _, h21 => by simp [charListLe] at h21
  | _ :: _, [], h12, _ => by simp [charListLe] at h12
  | a :: as, b :: bs, h12, h21 => by
    by_cases hab : a < b
    · simp only [charListLe] at h21
      rw [if_neg (lt_asymm hab), if_pos hab] at h21
      exact absurd h21 (by simp)
    · by_cases hba : b < a
      · simp only [charListLe] at h12
        rw [if_neg (lt_asymm hba), if_pos hba] at h12
        exact absurd h12 (by simp)
      · have habeq : a = b := le_antisymm (not_lt.mp hba) (not_lt.mp hab)
        subst habeq
        simp only [charListLe] at h12 h21
        rw [if_neg (lt_irrefl a), if_neg (lt_irrefl a)] at h12 h21
        rw [charListLe_antisymm h12 h21]

theorem strLe_refl (s : String) : strLe s s = true :=
  charListLe_refl s.toList

theorem strLe_antisymm {a b : String} (h1 : strLe a b = true) (h2 : strLe b a = true) :
    a = b :=
  String.toList_inj.mp (charListLe_antisymm h1 h2)

instance : IsTotal String (fun a b => strLe a b = true) :=
  ⟨fun a b => charListLe_total a.toList b.toList⟩

instance : IsTrans String (fun a b => strLe a b = true) :=
  ⟨fun _ _ _ h1 h2 => charListLe_trans h1 h2⟩

/-! ## ISO-date version keys -/

/-- A decimal digit character. -/
def isDigitChar (c : Char) : Bool :=
  decide ('0' ≤ c) && decide (c ≤ '9')

/-- The shape `DDDD-DD-DD` (digits and two dashes) of a character list. -/
def isoDateChars (l : List Char) : Bool :=
  (l.length == 10) &&
  isDigitChar (l.getD 0 ' ') && isDigitChar (l.getD 1 ' ') &&
  isDigitChar (l.getD 2 ' ') && isDigitChar (l.getD 3 ' ') &&
  ((l.getD 4 ' ') == '-') &&
  isDigitChar (l.getD 5 ' ') && isDigitChar (l.getD 6 ' ') &&
  ((l.getD 7 ' ') == '-') &&
  isDigitChar (l.getD 8 ' ') && isDigitChar (l.getD 9 ' ')

/-- An ISO-date version key such as `"2001-01-01"`. -/
def isIsoDateKey (s : String) : Bool :=
  isoDateChars s.toList

/-- An ISO-date character list sorts lexically before `"latest"`: its first
character is a digit, and every digit sorts before the letter `l`. -/
theorem isoDateChars_le_latest {l : List Char} (h : isoDateChars l = true) :
    charListLe l ['l', 'a', 't', 'e', 's', 't'] = true := by
  simp only [isoDateChars, Bool.and_eq_true, beq_iff_eq] at h
  obtain ⟨⟨⟨⟨⟨⟨⟨⟨⟨⟨h10, h0⟩, _⟩, _⟩, _⟩, _⟩, _⟩, _⟩, _⟩, _⟩, _⟩ := h
  cases l with
  | nil => simp at h10
  | cons c rest =>
    have hc : isDigitChar c = true := by simpa using h0
    have hcl : c < 'l' := by
      simp only [isDigitChar, Bool.and_eq_true, decide_eq_true_eq] at hc
      exact lt_of_le_of_lt hc.2 (by decide)
    simp only [charListLe]
    rw [if_pos hcl]

/-- An ISO-date version key sorts lexically at or before the token `"latest"`. -/
theorem isIsoDateKey_strLe_latest {s : String} (h : isIsoDateKey s = true) :
    strLe s "latest" = true := by
  unfold strLe
  have hlatest : ("latest" : String).toList = ['l', 'a', 't', 'e', 's', 't'] := rfl
  rw [hlatest]
  exact isoDateChars_le_latest h

end AwsClient

namespace AwsClient

/-! ## Version resolution (`getLatestClientVersion`)

The registry is `this.constructor.clients`: `none` models a client class with
no `clients` hash at all; `some keys` models the plain-object hash created by
`defineClient`, carrying the registered version keys.  Two quirks of the
source are modelled faithfully rather than repaired:

* the guard `this.constructor.clients.length === 0` can never fire for the
  plain-object registry that `defineClient` builds — a plain object has no
  `length` property, and `undefined === 0` is false — so a `some keys`
  registry always reaches the fuzzy match, even when `keys` is empty;
* `Object.hasOwnProperty(this.constructor.clients, version)` invokes
  `hasOwnProperty` on the `Object` constructor itself, with the registry as
  the property-name argument (coerced to the string `"[object Object]"`) and
  `version` ignored; `Object` has no such own property, so the exact-match
  test is always false (`hasOwnPropertyCheck`). -/

/-- The token normalization `if (!version) version = 'latest'`: an undefined
or empty (falsy) requested version becomes the literal token `"latest"`. -/
def requestedVersionToken : Option String → String
  | none => "latest"
  | some s => if s = "" then "latest" else s

/-- The exact-match test `Object.hasOwnProperty(this.constructor.clients,
version)` of the source: always false (see the section comment above). -/
def hasOwnPropertyCheck (_keys : List String) (_version : String) : Bool :=
  false

/-- `Object.keys(this.constructor.clients).sort()`: the registered keys in
ascending lexicographic order. -/
def sortedKeys (keys : List String) : List String :=
  List.insertionSort (fun a b => strLe a b = true) keys

/-- The downward scan `for (i = keys.length - 1; i >= 0; i--) if (keys[i] <=
version) return keys[i]`: the first key of the reversed sorted list that is
lexically at or below `v`. -/
def findGreatestLE (keys : List String) (v : String) : Option String :=
  (sortedKeys keys).reverse.find? (fun k => strLe k v)

/-- `getLatestClientVersion(version)`: throw `noClients` when the class has
no `clients` hash; otherwise normalize the requested token, try the (dead)
exact-match test, then fuzzy-match downward over the sorted keys, throwing
`versionConstraint` when no key qualifies. -/
def getLatestClientVersion (sid : String) (clients : Option (List String))
    (version : Option String) : Except JsError String :=
  match clients with
  | none => Except.error (JsError.noClients sid)
  | some keys =>
    let v := requestedVersionToken version
    if hasOwnPropertyCheck keys v then Except.ok v
    else
      match findGreatestLE keys v with
      | some k => Except.ok k
      | none => Except.error (JsError.versionConstraint sid v)

/-- Unfolding of `getLatestClientVersion` on a present registry: the dead
exact-match branch drops away. -/
theorem getLatestClientVersion_some (sid : String) (keys : List String)
    (version : Option String) :
    getLatestClientVersion sid (some keys) version =
      match findGreatestLE keys (requestedVersionToken version) with
      | some k => Except.ok k
      | none =>
          Except.error (JsError.versionConstraint sid (requestedVersionToken version)) := by
  simp [getLatestClientVersion, hasOwnPropertyCheck]

/-- On a list that is pairwise descending, `find?` returns the greatest
element satisfying a downward-closed bound. -/
theorem find_first_le {d : List String} {v m : String}
    (hd : List.Pairwise (fun a b => strLe b a = true) d)
    (hm : m ∈ d) (hmv : strLe m v = true)
    (hub : ∀ k ∈ d, strLe k v = true → strLe k m = true) :
    d.find? (fun k => strLe k v) = some m := by
  induction d with
  | nil => cases hm
  | cons a t ih =>
    rcases List.pairwise_cons.mp hd with ⟨ha, ht⟩
    by_cases hav : strLe a v = true
    · rw [List.find?_cons_of_pos (p := fun k => strLe k v) _ hav]
      have ham : strLe a m = true := hub a (List.mem_cons_self a t) hav
      have hma : strLe m a = true := by
        rcases List.mem_cons.mp hm with rfl | hmt
        · exact strLe_refl m
        · exact ha m hmt
      rw [strLe_antisymm ham hma]
    · rw [List.find?_cons_of_neg (p := fun k => strLe k v) _ (by simpa using hav)]
      have hmt : m ∈ t := by
        rcases List.mem_cons.mp hm with rfl | hmt
        · exact absurd hmv hav
        · exact hmt
      exact ih ht hmt (fun k hk hkv => hub k (List.mem_cons_of_mem a hk) hkv)

/-- The downward scan finds exactly the greatest registered key at or below
`v`, whenever such a greatest key is given. -/
theorem findGreatestLE_eq_max {keys : List String} {v m : String}
    (hm : m ∈ keys) (hmv : strLe m v = true)
    (hub : ∀ k ∈ keys, strLe k v = true → strLe k m = true) :
    findGreatestLE keys v = some m := by
  unfold findGreatestLE
  apply find_first_le
  · rw [List.pairwise_reverse]
    exact List.sorted_insertionSort _ keys
  · rw [List.mem_reverse]
    exact (List.mem_insertionSort _).mpr hm
  · exact hmv
  · intro k hk
    rw [List.mem_reverse] at hk
    exact hub k ((List.mem_insertionSort _).mp hk)

/-- The downward scan finds nothing when no registered key is at or below `v`. -/
theorem findGreatestLE_eq_none {keys : List String} {v : String}
    (h : ∀ k ∈ keys, strLe k v = false) :
    findGreatestLE keys v = none := by
  unfold findGreatestLE
  rw [List.find?_eq_none]
  intro x hx
  rw [List.mem_reverse] at hx
  simp [h x ((List.mem_insertionSort _).mp hx)]

/-- C1: on a non-empty registry of ISO-date keys, fuzzy resolution returns
the lexically greatest registered key at or below the requested version `v`,
raises the version-constraint error when no registered key is at or below
`v`, and when the version is absent it is treated as the token `"latest"`,
so the greatest registered date key overall is returned (digits sort before
letters). -/
theorem getLatestClientVersion_fuzzy (sid v : String) (keys : List String)
    (_hne : keys ≠ []) (hiso : ∀ k ∈ keys, isIsoDateKey k = true) (hv : v ≠ "") :
    (∀ m ∈ keys, strLe m v = true →
        (∀ k ∈ keys, strLe k v = true → strLe k m = true) →
        getLatestClientVersion sid (some keys) (some v) = Except.ok m) ∧
    ((∀ k ∈ keys, strLe k v = false) →
        getLatestClientVersion sid (some keys) (some v)
          = Except.error (JsError.versionConstraint sid v)) ∧
    (∀ m ∈ keys, (∀ k ∈ keys, strLe k m = true) →
        getLatestClientVersion sid (some keys) none = Except.ok m) := by
  have htok : requestedVersionToken (some v) = v := by
    simp [requestedVersionToken, hv]
  refine ⟨?_, ?_, ?_⟩
  · intro m hm hmv hub
    rw [getLatestClientVersion_some, htok, findGreatestLE_eq_max hm hmv hub]
  · intro h
    rw [getLatestClientVersion_some, htok, findGreatestLE_eq_none h]
  · intro m hm hall
    rw [getLatestClientVersion_some]
    have htok0 : requestedVersionToken none = "latest" := rfl
    rw [htok0, findGreatestLE_eq_max hm (isIsoDateKey_strLe_latest (hiso m hm))
      (fun k hk _ => hall k hk)]

/-- Witness for C1: the registry of the spec's end-to-end scenario 1;
requesting `"2000-01-01"` resolves to `"1999-05-05"`. -/
theorem getLatestClientVersion_fuzzy_witness :
    getLatestClientVersion "custom" (some ["2001-01-01", "1999-05-05"]) (some "2000-01-01")
      = Except.ok "1999-05-05" :=
  (getLatestClientVersion_fuzzy "custom" "2000-01-01" ["2001-01-01", "1999-05-05"]
      (by decide) (by decide) (by decide)).1 "1999-05-05" (by decide) (by decide) (by decide)

/-- C4: a registry that exists but is empty (service defined with no
versions) does not raise the `noClients` error — the guard
`clients.length === 0` never fires on a plain object — it falls through to
the fuzzy match and raises the version-constraint error instead. -/
theorem getLatestClientVersion_emptyRegistry :
    getLatestClientVersion "custom" (some []) none
      = Except.error (JsError.versionConstraint "custom" "latest") ∧
    getLatestClientVersion "custom" (some []) none
      ≠ Except.error (JsError.noClients "custom") := by
  have h1 : getLatestClientVersion "custom" (some []) none
      = Except.error (JsError.versionConstraint "custom" "latest") := rfl
  refine ⟨h1, ?_⟩
  rw [h1]
  simp

/-- C5: whenever the requested version string is itself a registered key —
the literal key `"latest"` included — resolution returns exactly that key.
(The source's exact-match branch is dead, but the fuzzy match returns a
registered requested key all the same: it is its own greatest lower match.) -/
theorem getLatestClientVersion_exactMatch (sid v : String) (keys : List String)
    (hv : v ≠ "") (hmem : v ∈ keys) :
    getLatestClientVersion sid (some keys) (some v) = Except.ok v := by
  have htok : requestedVersionToken (some v) = v := by
    simp [requestedVersionToken, hv]
  rw [getLatestClientVersion_some, htok,
    findGreatestLE_eq_max hmem (strLe_refl v) (fun k _ hkv => hkv)]

/-- Witness for C5: a registry carrying the literal key `"latest"` next to
date keys; requesting `"latest"` returns that exact key. -/
theorem getLatestClientVersion_exactMatch_witness :
    getLatestClientVersion "custom" (some ["2001-01-01", "latest", "1999-05-05"]) (some "latest")
      = Except.ok "latest" :=
  getLatestClientVersion_exactMatch "custom" "latest" ["2001-01-01", "latest", "1999-05-05"]
    (by decide) (by decide)

end AwsClient

namespace AwsClient

/-! ## Endpoint resolution (`setEndpoint`) -/

/-- JavaScript string coercion of a possibly-undefined string value, as it
happens inside the template concatenation of `setEndpoint`. -/
def jsStringOfOpt : Option String → String
  | some s => s
  | none => "undefined"

/-- `setEndpoint(endpoint)`: an explicit (truthy) endpoint argument wins;
otherwise a declared `api.globalEndpoint` is used; otherwise the host is
synthesized as `endpointPrefix + '.' + config.region + '.amazonaws.com'`.
Total: every branch constructs an `Endpoint`. -/
def setEndpoint (endpoint : Option String) (api : ServiceApi) (cfg : ClientConfig) :
    Endpoint :=
  if jsTruthyStr endpoint then { host := jsStringOfOpt endpoint }
  else if jsTruthyStr api.globalEndpoint then { host := jsStringOfOpt api.globalEndpoint }
  else { host := jsStringOfOpt api.endpointPrefix ++ "." ++ cfg.region ++ ".amazonaws.com" }

/-- C6: endpoint host priority — an explicit endpoint argument wins outright,
else a declared global endpoint, else exactly
`"{endpointPrefix}.{config.region}.amazonaws.com"`; `setEndpoint` is a total
function, so it always produces an `Endpoint`. -/
theorem setEndpoint_priority (e g p : String) (api : ServiceApi) (cfg : ClientConfig) :
    (e ≠ "" → setEndpoint (some e) api cfg = { host := e }) ∧
    (api.globalEndpoint = some g → g ≠ "" →
        setEndpoint none api cfg = { host := g }) ∧
    (jsTruthyStr api.globalEndpoint = false → api.endpointPrefix = some p →
        setEndpoint none api cfg
          = { host := p ++ "." ++ cfg.region ++ ".amazonaws.com" }) := by
  refine ⟨?_, ?_, ?_⟩
  · intro he
    simp [setEndpoint, jsTruthyStr, jsStringOfOpt, he]
  · intro hg hgne
    simp [setEndpoint, jsTruthyStr, jsStringOfOpt, hg, hgne]
  · intro hgf hp
    unfold setEndpoint
    rw [if_neg (by simp [jsTruthyStr]), if_neg (by simp [hgf])]
    simp [jsStringOfOpt, hp]

/-- Witness for C6: the explicit endpoint overrides a declared global
endpoint, and without either the host is region-synthesized. -/
theorem setEndpoint_priority_witness :
    setEndpoint (some "notfooservice.amazonaws.com")
        { globalEndpoint := some "fooservice.amazonaws.com" } {}
      = { host := "notfooservice.amazonaws.com" } ∧
    setEndpoint none { endpointPrefix := some "fooservice" } { region := "someregion" }
      = { host := "fooservice.someregion.amazonaws.com" } := by
  constructor
  · exact (setEndpoint_priority "notfooservice.amazonaws.com" "g" "p"
      { globalEndpoint := some "fooservice.amazonaws.com" } {}).1 (by decide)
  · have h := (setEndpoint_priority "e" "g" "fooservice"
      { endpointPrefix := some "fooservice" } { region := "someregion" }).2.2 rfl rfl
    simpa using h

/-! ## Client-class selection (`loadClientClass`) -/

/-- The decision `loadClientClass` reaches.  In the source, both the
"already-bound api" and the "no clients hash" branches `return` `undefined`;
the constructor then falls through to `initialize`, keeping whatever `api`
the prototype carries — the two constructors record which guard fired. -/
inductive LoadDecision where
  /-- `!AWS.util.isEmpty(this.api)`: the bound descriptor is used as-is. -/
  | useBoundApi
  /-- `config.apiConfig` is supplied: bound inline via `defineClientApi`,
  never consulting the version registry. -/
  | bindInline (api : ServiceApi)
  /-- no `clients` hash on the constructor: the client has no operations. -/
  | noOperations
  /-- delegate to `getLatestClientClass` with this requested version. -/
  | resolveVersion (version : Option String)
deriving Repr, DecidableEq

/-- `loadClientClass(clientConfig)`: the branch cascade of the source.  The
version handed to resolution is `config.apiVersions[serviceIdentifier] ||
config.apiVersion` computed on the merged config `cfg`. -/
def loadClientClass (boundApi : ServiceApi) (registry : Option (List String))
    (sid : String) (cfg : ClientConfig) : LoadDecision :=
  if boundApi.isEmpty = false then LoadDecision.useBoundApi
  else
    match cfg.apiConfig with
    | some a => LoadDecision.bindInline a
    | none =>
      match registry with
      | none => LoadDecision.noOperations
      | some _ => LoadDecision.resolveVersion (jsOrStr (cfg.apiVersions sid) cfg.apiVersion)

/-- C7: client-class selection priority — a non-empty bound api descriptor
is used as-is; else an inline `apiConfig` is bound directly; else with no
registry the client has no operations; else the requested version is the
service-specific `apiVersions` entry when present, else `apiVersion`, else
the token `"latest"`. -/
theorem loadClientClass_priority (boundApi : ServiceApi) (registry : Option (List String))
    (sid : String) (cfg : ClientConfig) :
    (boundApi.isEmpty = false →
        loadClientClass boundApi registry sid cfg = LoadDecision.useBoundApi) ∧
    (boundApi.isEmpty = true → ∀ a, cfg.apiConfig = some a →
        loadClientClass boundApi registry sid cfg = LoadDecision.bindInline a) ∧
    (boundApi.isEmpty = true → cfg.apiConfig = none → registry = none →
        loadClientClass boundApi registry sid cfg = LoadDecision.noOperations) ∧
    (boundApi.isEmpty = true → cfg.apiConfig = none → registry ≠ none →
        ((∀ v, cfg.apiVersions sid = some v → v ≠ "" →
            loadClientClass boundApi registry sid cfg
              = LoadDecision.resolveVersion (some v)) ∧
         (jsTruthyStr (cfg.apiVersions sid) = false →
            ∀ w, cfg.apiVersion = some w → w ≠ "" →
              loadClientClass boundApi registry sid cfg
                = LoadDecision.resolveVersion (some w)) ∧
         (jsTruthyStr (cfg.apiVersions sid) = false → jsTruthyStr cfg.apiVersion = false →
            ∃ u, loadClientClass boundApi registry sid cfg
                = LoadDecision.resolveVersion u ∧
              requestedVersionToken u = "latest"))) := by
  refine ⟨?_, ?_, ?_, ?_⟩
  · intro h
    simp [loadClientClass, h]
  · intro h a ha
    simp [loadClientClass, h, ha]
  · intro h hac hr
    simp [loadClientClass, h, hac, hr]
  · intro h hac hr
    rcases hreg : registry with _ | ks
    · exact absurd hreg hr
    refine ⟨?_, ?_, ?_⟩
    · intro v hv hvne
      simp [loadClientClass, h, hac, jsOrStr, jsTruthyStr, hv, hvne]
    · intro hfalse w hw hwne
      simp [loadClientClass, h, hac, jsOrStr, hfalse, hw]
    · intro hfalse1 hfalse2
      refine ⟨cfg.apiVersion, ?_, ?_⟩
      · simp [loadClientClass, h, hac, jsOrStr, hfalse1]
      · rcases hv : cfg.apiVersion with _ | s
        · rfl
        · rw [hv] at hfalse2
          simp [jsTruthyStr] at hfalse2
          simp [requestedVersionToken, hfalse2]

/-- Witness for C7: an empty bound api, no inline apiConfig, a present
registry, and a service-specific `apiVersions` entry — that entry is the
requested version. -/
theorem loadClientClass_priority_witness :
    loadClientClass {} (some ["2001-01-01", "1999-05-05"]) "custom"
        { apiVersions := fun s => if s = "custom" then some "2000-01-01" else none }
      = LoadDecision.resolveVersion (some "2000-01-01") :=
  ((loadClientClass_priority {} (some ["2001-01-01", "1999-05-05"]) "custom"
      { apiVersions := fun s => if s = "custom" then some "2000-01-01" else none }).2.2.2
    rfl rfl (by simp)).1 "2000-01-01" (by simp) (by decide)

end AwsClient

namespace AwsClient

/-! ## Request construction (`makeRequest`) -/

/-- A response as the complete-phase listener observes it: `resp.error` and
`resp.data`. -/
structure ClientResponse where
  error : Option ErrorInfo := none
  data : Option String := none

/-- The `params` argument of `makeRequest`: a params object, a function (a
callback passed in the params position), or absent. -/
inductive ParamsArg (ρ : Type) where
  | obj (p : List (String × String))
  | func (f : Option ErrorInfo → Option String → ρ)
  | undef

/-- The request that `makeRequest` builds: the operation name, the params it
was constructed with, the callback attached to the `complete` event (if
any), and whether `send()` was invoked. -/
structure ClientRequest (ρ : Type) where
  operation : String
  params : Option (List (String × String))
  onComplete : Option (Option ErrorInfo → Option String → ρ)
  sent : Bool

/-- `makeRequest(operation, params, callback)`: when `params` is a function
it becomes the callback and `params` becomes `{}`; the request is built and
listeners attached in every case; only when a callback is present is it
attached to `complete` and the request sent. -/
def makeRequest {ρ : Type} (operation : String) (params : ParamsArg ρ)
    (callback : Option (Option ErrorInfo → Option String → ρ)) : ClientRequest ρ :=
  match params with
  | ParamsArg.func f =>
      { operation := operation, params := some [], onComplete := some f, sent := true }
  | ParamsArg.obj p =>
      { operation := operation, params := some p, onComplete := callback,
        sent := callback.isSome }
  | ParamsArg.undef =>
      { operation := operation, params := none, onComplete := callback,
        sent := callback.isSome }

/-- Firing the `complete` event on a request: the attached callback is
invoked as `callback.call(resp, resp.error, resp.data)`. -/
def fireComplete {ρ : Type} (req : ClientRequest ρ) (resp : ClientResponse) : Option ρ :=
  req.onComplete.map (fun cb => cb resp.error resp.data)

/-- C9: `makeRequest` always constructs and returns a `Request`; with the
callback omitted the request is returned unsent and nothing is attached to
`complete`; a function in params position is treated as the callback with
params defaulting to the empty object; an attached callback receives
`(error, data)` of the response when `complete` fires. -/
theorem makeRequest_callback {ρ : Type} (op : String) (p : List (String × String))
    (f : Option ErrorInfo → Option String → ρ) (resp : ClientResponse) :
    ((makeRequest op (ParamsArg.obj p) none : ClientRequest ρ)
      = { operation := op, params := some p, onComplete := none, sent := false }) ∧
    (makeRequest op (ParamsArg.obj p) (some f)).sent = true ∧
    fireComplete (makeRequest op (ParamsArg.obj p) (some f)) resp
      = some (f resp.error resp.data) ∧
    (makeRequest op (ParamsArg.func f) none
      = { operation := op, params := some [], onComplete := some f, sent := true }) ∧
    fireComplete (makeRequest op (ParamsArg.func f) none) resp
      = some (f resp.error resp.data) :=
  ⟨rfl, rfl, rfl, rfl, rfl⟩

/-! ## Per-format listener sets (`serviceInterface`, `addAllRequestListeners`) -/

/-- The listener sets `addAllRequestListeners` may attach: the process-wide
`AWS.events` set, `AWS.EventListeners.Core`, and the four per-format sets. -/
inductive ListenerSet where
  | globalEvents
  | core
  | query
  | json
  | restJson
  | restXml
deriving Repr, DecidableEq

/-- `serviceInterface()`: the switch over `this.api.format`, then `if
(this.api.format) throw` — so a truthy format outside the closed set throws
`invalidFormat`, while an absent (or falsy) format falls through and yields
no listener set. -/
def serviceInterface (api : ServiceApi) : Except JsError (Option ListenerSet) :=
  match api.format with
  | none => Except.ok none
  | some f =>
    if f = "query" then Except.ok (some ListenerSet.query)
    else if f = "json" then Except.ok (some ListenerSet.json)
    else if f = "rest-json" then Except.ok (some ListenerSet.restJson)
    else if f = "rest-xml" then Except.ok (some ListenerSet.restXml)
    else if f = "" then Except.ok none
    else Except.error (JsError.invalidFormat f)

/-- The listener state `addAllRequestListeners` leaves on the request: the
sets attached, and whether the parameter-validation listener was removed. -/
structure AttachedListeners where
  sets : List ListenerSet
  validateParamsRemoved : Bool
deriving Repr, DecidableEq

/-- `addAllRequestListeners(request)`: attaches `AWS.events`, the core set,
and the per-format set; an undefined `serviceInterface()` result is skipped
by the `if (list[i])` guard; the validation listener is removed when
`config.paramValidation` is falsy. -/
def addAllRequestListeners (api : ServiceApi) (paramValidation : Bool) :
    Except JsError AttachedListeners :=
  match serviceInterface api with
  | Except.error e => Except.error e
  | Except.ok si =>
    Except.ok
      { sets := [some ListenerSet.globalEvents, some ListenerSet.core, si].filterMap id,
        validateParamsRemoved := !paramValidation }

/-- C10: a (truthy) format outside the closed set `query`, `json`,
`rest-json`, `rest-xml` makes `serviceInterface` raise the invalid-format
error naming it; with no format at all, `serviceInterface` yields no
listener set and `addAllRequestListeners` attaches only the global and core
sets, still succeeding — a format-less client still builds requests. -/
theorem serviceInterface_format (api : ServiceApi) :
    (∀ f, api.format = some f → f ≠ "" →
        f ∉ (["query", "json", "rest-json", "rest-xml"] : List String) →
        serviceInterface api = Except.error (JsError.invalidFormat f)) ∧
    (api.format = none →
        serviceInterface api = Except.ok none ∧
        ∀ pv, addAllRequestListeners api pv
          = Except.ok { sets := [ListenerSet.globalEvents, ListenerSet.core],
                        validateParamsRemoved := !pv }) := by
  constructor
  · intro f hf hne hnotin
    simp only [List.mem_cons, List.not_mem_nil, or_false, not_or] at hnotin
    obtain ⟨h1, h2, h3, h4⟩ := hnotin
    simp [serviceInterface, hf, h1, h2, h3, h4, hne]
  · intro hf
    have hsi : serviceInterface api = Except.ok none := by
      simp [serviceInterface, hf]
    refine ⟨hsi, ?_⟩
    intro pv
    simp [addAllRequestListeners, hsi]

/-- Witness for C10: the format `"soap"` raises the invalid-format error; a
client with the default empty api still attaches the global and core listener
sets. -/
theorem serviceInterface_format_witness :
    serviceInterface { format := some "soap" } = Except.error (JsError.invalidFormat "soap") ∧
    addAllRequestListeners {} true
      = Except.ok { sets := [ListenerSet.globalEvents, ListenerSet.core],
                    validateParamsRemoved := false } := by
  constructor
  · exact (serviceInterface_format { format := some "soap" }).1 "soap" rfl
      (by decide) (by decide)
  · have h := ((serviceInterface_format {}).2 rfl).2 true
    simpa using h

end AwsClient
